import Mathlib

/-!
Shallow embedding of the `vector` (3D) and `vector2d` Go packages over the
real numbers.  Each Lean definition below mirrors one Go function; float32
arithmetic is modelled by exact real arithmetic, `math.NaN()` results are
modelled by `Option.none`, and the Go variadic optional parameters are
modelled by a `List ℝ` argument inspected for its first element, exactly as
the Go code inspects `len(arg) >= 1` and `arg[0]`.
-/

set_option maxHeartbeats 1000000

noncomputable section

namespace vector3

/-- Model of `type Vector struct { X, Y, Z float32 }`. -/
structure Vector where
  X : ℝ
  Y : ℝ
  Z : ℝ

/-- Model of `func New(x, y, z float32) *Vector`. -/
def New (x y z : ℝ) : Vector := ⟨x, y, z⟩

/-- Model of `func zero() *Vector`. -/
def zero : Vector := ⟨0, 0, 0⟩

/-- Model of `func FromAngles(thetha, phi float32, length ...float32) *Vector`:
`l` defaults to 1 and is the first variadic argument when one is passed;
components are `l*cos(theta)*sin(phi)`, `l*sin(theta)*sin(phi)`, `l*cos(phi)`. -/
def FromAngles (thetha phi : ℝ) (length : List ℝ) : Vector :=
  let l : ℝ := match length with
    | [] => 1
    | a :: _ => a
  ⟨l * Real.cos thetha * Real.sin phi,
   l * Real.sin thetha * Real.sin phi,
   l * Real.cos phi⟩

/-- Model of `(*Vector).Equal(v2 *Vector, tolerance ...float32) bool`.
The Go code sets `t = 1e-7` and then *adds* the first variadic tolerance to
it (`t += tolerance[0]`); it returns false as soon as one component
difference exceeds `t`, and true otherwise. -/
def Equal (v v2 : Vector) (tolerance : List ℝ) : Bool :=
  let t : ℝ := match tolerance with
    | [] => 1e-7
    | a :: _ => 1e-7 + a
  if |v.X - v2.X| > t then false
  else if |v.Y - v2.Y| > t then false
  else if |v.Z - v2.Z| > t then false
  else true

/-- Model of `func isZero(v *Vector) bool`. -/
def isZero (v : Vector) : Prop := v.X = 0 ∧ v.Y = 0 ∧ v.Z = 0

instance (v : Vector) : Decidable (isZero v) := by unfold isZero; infer_instance

/-- Model of `(*Vector).Copy` / `func Copy(v *Vector) *Vector`. -/
def Copy (v : Vector) : Vector := ⟨v.X, v.Y, v.Z⟩

/-- Model of `(*Vector).Mag() float32`: `sqrt(x*x + y*y + z*z)`. -/
def Mag (v : Vector) : ℝ := Real.sqrt (v.X * v.X + v.Y * v.Y + v.Z * v.Z)

/-- Model of `(*Vector).MagSq() float32`: `x*x + y*y + z*z`. -/
def MagSq (v : Vector) : ℝ := v.X * v.X + v.Y * v.Y + v.Z * v.Z

/-- Model of `(*Vector).Normalize()`: divides each component by the
magnitude unless the magnitude is zero, in which case the vector is left
unchanged.  The in-place mutation is modelled by returning the new value. -/
def Normalize (v : Vector) : Vector :=
  if Mag v = 0 then v else ⟨v.X / Mag v, v.Y / Mag v, v.Z / Mag v⟩

/-- Model of `func Unit(v *Vector) *Vector`: returns the zero vector when
the magnitude is zero, otherwise the componentwise quotient by it. -/
def Unit (v : Vector) : Vector :=
  if Mag v = 0 then ⟨0, 0, 0⟩ else ⟨v.X / Mag v, v.Y / Mag v, v.Z / Mag v⟩

/-- Model of `(*Vector).Mult(scalar float32)`: componentwise scaling,
mutation modelled by returning the new value. -/
def Mult (v : Vector) (scalar : ℝ) : Vector :=
  ⟨v.X * scalar, v.Y * scalar, v.Z * scalar⟩

/-- Model of `(*Vector).Resize(mag float32)`: `v.Normalize(); v.Mult(mag)`. -/
def Resize (v : Vector) (mag : ℝ) : Vector := Mult (Normalize v) mag

/-- Model of `func Add(v1, v2 *Vector) *Vector` (the pure free function). -/
def Add (v1 v2 : Vector) : Vector := ⟨v1.X + v2.X, v1.Y + v2.Y, v1.Z + v2.Z⟩

/-- Model of `func Sub(v1, v2 *Vector) *Vector` (the pure free function). -/
def Sub (v1 v2 : Vector) : Vector := ⟨v1.X - v2.X, v1.Y - v2.Y, v1.Z - v2.Z⟩

/-- Model of `func Dot(v1, v2 *Vector) float32`. -/
def Dot (v1 v2 : Vector) : ℝ := v1.X * v2.X + v1.Y * v2.Y + v1.Z * v2.Z

/-- Model of `func Cross(v1, v2 *Vector) *Vector`. -/
def Cross (v1 v2 : Vector) : Vector :=
  ⟨v1.Y * v2.Z - v1.Z * v2.Y, v1.Z * v2.X - v1.X * v2.Z, v1.X * v2.Y - v1.Y * v2.X⟩

/-- Model of `func Dist(v1, v2 *Vector) float32`: `Sub(v1, v2).Mag()`. -/
def Dist (v1 v2 : Vector) : ℝ := Mag (Sub v1 v2)

/-- Model of `math.Acos`: returns NaN (modelled as `none`) outside the
domain `[-1, 1]`, otherwise the principal arc cosine. -/
def acosF (x : ℝ) : Option ℝ :=
  if x < -1 ∨ 1 < x then none else some (Real.arccos x)

/-- Model of `func Angle(v1, v2 *Vector) float32`: NaN (modelled as `none`)
when either magnitude is zero, otherwise `acos(dot/(m1*m2))` (which itself
is NaN when the quotient falls outside `[-1, 1]`). -/
def Angle (v1 v2 : Vector) : Option ℝ :=
  if Mag v1 = 0 ∨ Mag v2 = 0 then none
  else acosF (Dot v1 v2 / (Mag v1 * Mag v2))

/-- Model of the Go `math.Atan2(y, x)`: the angle in `(-π, π]` of the point
`(x, y)`, with `atan2(0, 0) = 0`; this is the complex argument of `x + y·i`. -/
def atan2 (y x : ℝ) : ℝ := Complex.arg ⟨x, y⟩

/-- Model of `(*Vector).Heading() (theta, phi float32)`:
`theta = atan2(y, x)`; `phi` is NaN (modelled as `none`) when the magnitude
is zero, otherwise `acos(z/|v|)`. -/
def Heading (v : Vector) : ℝ × Option ℝ :=
  (atan2 v.Y v.X, if Mag v = 0 then none else some (Real.arccos (v.Z / Mag v)))

/-- Model of `func rotateOnPlane(v, normal *Vector, angle float32) *Vector`:
`V = v*cos(angle) + (Unit(normal) × v)*sin(angle)`. -/
def rotateOnPlane (v normal : Vector) (angle : ℝ) : Vector :=
  Add (Mult (Copy v) (Real.cos angle)) (Mult (Cross (Unit normal) v) (Real.sin angle))

/-- Model of `(*Vector).Component(axis *Vector) (parallel, perpendicular *Vector)`:
both results are zero when the axis is zero; otherwise `parallel` is the
normalized axis scaled by `Dot(v, axis_unit)` and `perpendicular = v - parallel`. -/
def Component (v axis : Vector) : Vector × Vector :=
  if isZero axis then (zero, zero)
  else
    let parallel := Mult (Normalize (Copy axis)) (Dot v (Normalize (Copy axis)))
    (parallel, Sub v parallel)

/-- Model of `func RotateAlongAxis(v, axis *Vector, angle float32) *Vector`:
identity when the axis is zero; otherwise the parallel component plus the
perpendicular component rotated in the plane normal to the axis. -/
def RotateAlongAxis (v axis : Vector) (angle : ℝ) : Vector :=
  if isZero axis then v
  else
    let pr := Component v axis
    Add pr.1 (rotateOnPlane pr.2 axis angle)

/-- Model of `func ReflectThroughPlane(v, normal *Vector) *Vector`:
identity when the normal is zero; otherwise `v - n̂*(2*Dot(v, n̂))` for the
normalized normal `n̂`. -/
def ReflectThroughPlane (v normal : Vector) : Vector :=
  if isZero normal then v
  else Sub v (Mult (Normalize (Copy normal)) (2 * Dot v (Normalize (Copy normal))))

/-- Model of `func lerpf(a, b, t float32) float32`. -/
def lerpf (a b t : ℝ) : ℝ := a + (b - a) * t

/-- Model of `func Lerp(v1, v2 *Vector, t float32) *Vector`. -/
def Lerp (v1 v2 : Vector) (t : ℝ) : Vector :=
  ⟨lerpf v1.X v2.X t, lerpf v1.Y v2.Y t, lerpf v1.Z v2.Z t⟩

end vector3

namespace vector2d

/-- Model of `type Vector2D struct { X, Y float32 }` (package `vector2d`). -/
structure Vector2D where
  X : ℝ
  Y : ℝ

/-- Model of `(*Vector2D).Mag() float32`: `sqrt(x*x + y*y)`. -/
def Mag (v : Vector2D) : ℝ := Real.sqrt (v.X * v.X + v.Y * v.Y)

/-- Model of `(*Vector2D).MagSq() float32`. -/
def MagSq (v : Vector2D) : ℝ := v.X * v.X + v.Y * v.Y

/-- Model of `func Dot(v1, v2 *Vector2D) float32`. -/
def Dot (v1 v2 : Vector2D) : ℝ := v1.X * v2.X + v1.Y * v2.Y

/-- Model of `func Cross(v1, v2 *Vector2D) float32`: the scalar
`x1*y2 - y1*x2`. -/
def Cross (v1 v2 : Vector2D) : ℝ := v1.X * v2.Y - v1.Y * v2.X

/-- Model of `func AngleBetween(v1, v2 *Vector2D) float32`: NaN (modelled
as `none`) when either magnitude is zero; otherwise
`acos(min(1, max(-1, dot/(m1*m2))))`, negated when `Cross(v1, v2) < 0`. -/
def AngleBetween (v1 v2 : Vector2D) : Option ℝ :=
  if Mag v1 = 0 ∨ Mag v2 = 0 then none
  else
    let dotMag := Dot v1 v2 / (Mag v1 * Mag v2)
    let angle := Real.arccos (min 1 (max (-1) dotMag))
    if Cross v1 v2 < 0 then some (-angle) else some angle

end vector2d

namespace vector2dgen

/-- Model of the generic package type `Vector2D struct { X, Y float32 }`
(`src/vector2d-generic/vector2d.go`). -/
structure Vector2D where
  X : ℝ
  Y : ℝ

/-- Model of `(*Vector2D).Div(scalar interface\x7b\x7d) error`: a numeric
scalar converts via `getFloat` to its value; a zero scalar yields the
`divide by zero` error, otherwise both components are divided in place
(modelled by returning the updated value). -/
def Div (v : Vector2D) (scalar : ℝ) : Except String Vector2D :=
  if scalar = 0 then Except.error "divide by zero"
  else Except.ok ⟨v.X / scalar, v.Y / scalar⟩

end vector2dgen

namespace vector3

/-!
Heap model for the pointer semantics of the 3D package.  Go values of type
`*Vector` are addresses into a store; `alloc` models `&Vector{...}` (taking
a fresh address), `write` models assignment through a pointer.  Each `...H`
definition is the free function translated statement by statement, and each
`...M` definition is a mutating method (`Modify + Returns self`).
-/

/-- A store of `Vector` values: `mem` gives the value at each address,
`next` is the first unused address. -/
structure St where
  mem : Nat → Vector
  next : Nat

/-- Dereference a pointer. -/
def read (σ : St) (p : Nat) : Vector := σ.mem p

/-- Assignment through a pointer. -/
def write (σ : St) (p : Nat) (v : Vector) : St :=
  ⟨fun q => if q = p then v else σ.mem q, σ.next⟩

/-- Model of `&Vector{...}`: store the value at a fresh address. -/
def alloc (σ : St) (v : Vector) : St × Nat :=
  (⟨fun q => if q = σ.next then v else σ.mem q, σ.next + 1⟩, σ.next)

/-- Heap model of `func Copy(v *Vector) *Vector`. -/
def CopyH (σ : St) (p : Nat) : St × Nat :=
  alloc σ ⟨(read σ p).X, (read σ p).Y, (read σ p).Z⟩

/-- Heap model of `func Add(v1, v2 *Vector) *Vector`. -/
def AddH (σ : St) (p1 p2 : Nat) : St × Nat :=
  alloc σ ⟨(read σ p1).X + (read σ p2).X, (read σ p1).Y + (read σ p2).Y,
    (read σ p1).Z + (read σ p2).Z⟩

/-- Heap model of `func Sub(v1, v2 *Vector) *Vector`. -/
def SubH (σ : St) (p1 p2 : Nat) : St × Nat :=
  alloc σ ⟨(read σ p1).X - (read σ p2).X, (read σ p1).Y - (read σ p2).Y,
    (read σ p1).Z - (read σ p2).Z⟩

/-- Heap model of `func Cross(v1, v2 *Vector) *Vector`. -/
def CrossH (σ : St) (p1 p2 : Nat) : St × Nat :=
  alloc σ (Cross (read σ p1) (read σ p2))

/-- Heap model of `func Unit(v *Vector) *Vector`: allocates a fresh zero
vector or a fresh componentwise quotient. -/
def UnitH (σ : St) (p : Nat) : St × Nat :=
  if Mag (read σ p) = 0 then alloc σ ⟨0, 0, 0⟩
  else alloc σ ⟨(read σ p).X / Mag (read σ p), (read σ p).Y / Mag (read σ p),
    (read σ p).Z / Mag (read σ p)⟩

/-- Heap model of `func Dist(v1, v2 *Vector) float32`: `Sub(v1, v2).Mag()`. -/
def DistH (σ : St) (p1 p2 : Nat) : St × ℝ :=
  let s := SubH σ p1 p2
  (s.1, Mag (read s.1 s.2))

/-- Heap model of `func Dot(v1, v2 *Vector) float32` (no allocation). -/
def DotH (σ : St) (p1 p2 : Nat) : St × ℝ :=
  (σ, Dot (read σ p1) (read σ p2))

/-- Heap model of `func Angle(v1, v2 *Vector) float32` (no allocation). -/
def AngleH (σ : St) (p1 p2 : Nat) : St × Option ℝ :=
  (σ, Angle (read σ p1) (read σ p2))

/-- Heap model of `func Lerp(v1, v2 *Vector, t float32) *Vector`. -/
def LerpH (σ : St) (p1 p2 : Nat) (t : ℝ) : St × Nat :=
  alloc σ ⟨lerpf (read σ p1).X (read σ p2).X t, lerpf (read σ p1).Y (read σ p2).Y t,
    lerpf (read σ p1).Z (read σ p2).Z t⟩

/-- Heap model of `(*Vector).Mult(scalar)`: in-place scaling, returns self. -/
def multM (σ : St) (p : Nat) (scalar : ℝ) : St × Nat :=
  (write σ p (Mult (read σ p) scalar), p)

/-- Heap model of `(*Vector).Add(v2)`: in-place sum, returns self. -/
def addM (σ : St) (p p2 : Nat) : St × Nat :=
  (write σ p (Add (read σ p) (read σ p2)), p)

/-- Heap model of `(*Vector).Assign(v2)`: in-place copy, returns self. -/
def assignM (σ : St) (p p2 : Nat) : St × Nat :=
  (write σ p (read σ p2), p)

/-- Heap model of `(*Vector).Normalize()`: in-place division by the
magnitude unless it is zero, returns self. -/
def normalizeM (σ : St) (p : Nat) : St × Nat :=
  if Mag (read σ p) = 0 then (σ, p)
  else (write σ p ⟨(read σ p).X / Mag (read σ p), (read σ p).Y / Mag (read σ p),
    (read σ p).Z / Mag (read σ p)⟩, p)

/-- Heap model of `(*Vector).Component(axis)`: `zero(), zero()` for a zero
axis, otherwise `parallel = axis.Copy().Normalize()`,
`parallel.Mult(Dot(v, parallel))`, `perpendicular = Sub(v, parallel)`. -/
def ComponentH (σ : St) (pv pa : Nat) : St × Nat × Nat :=
  if isZero (read σ pa) then
    let z1 := alloc σ zero
    let z2 := alloc z1.1 zero
    (z2.1, z1.2, z2.2)
  else
    let c := CopyH σ pa
    let n := normalizeM c.1 c.2
    let d := Dot (read n.1 pv) (read n.1 n.2)
    let par := multM n.1 n.2 d
    let perp := SubH par.1 pv par.2
    (perp.1, par.2, perp.2)

/-- Heap model of `func rotateOnPlane(v, normal, angle) *Vector`:
`nv := Cross(Unit(normal), v); nv.Mult(sin); V := v.Copy().Mult(cos);
V.Add(nv); return V`. -/
def rotateOnPlaneH (σ : St) (pv pn : Nat) (angle : ℝ) : St × Nat :=
  let u := UnitH σ pn
  let nv := CrossH u.1 u.2 pv
  let nv2 := multM nv.1 nv.2 (Real.sin angle)
  let c := CopyH nv2.1 pv
  let V := multM c.1 c.2 (Real.cos angle)
  let V2 := addM V.1 V.2 nv2.2
  (V2.1, V2.2)

/-- Heap model of the method `(*Vector).rotateOnPlane`: `v.Assign(rotateOnPlane(v, normal, angle))`. -/
def rotateOnPlaneM (σ : St) (pv pn : Nat) (angle : ℝ) : St × Nat :=
  let r := rotateOnPlaneH σ pv pn angle
  assignM r.1 pv r.2

/-- Heap model of `func RotateAlongAxis(v, axis *Vector, angle float32) *Vector`:
returns the input pointer `v` unchanged for a zero axis, otherwise
`parallel, perpendicular := v.Component(axis); perpendicular.rotateOnPlane(axis, angle);
parallel.Add(perpendicular); return parallel`. -/
def RotateAlongAxisH (σ : St) (pv pa : Nat) (angle : ℝ) : St × Nat :=
  if isZero (read σ pa) then (σ, pv)
  else
    let pr := ComponentH σ pv pa
    let rp := rotateOnPlaneM pr.1 pr.2.2 pa angle
    let s := addM rp.1 pr.2.1 pr.2.2
    (s.1, pr.2.1)

/-- Heap model of `func ReflectThroughPlane(v, normal *Vector) *Vector`:
returns the input pointer `v` for a zero normal, otherwise
`n := normal.Copy().Normalize(); return Sub(v, n.Mult(2*Dot(v, n)))`. -/
def ReflectThroughPlaneH (σ : St) (pv pn : Nat) : St × Nat :=
  if isZero (read σ pn) then (σ, pv)
  else
    let c := CopyH σ pn
    let n := normalizeM c.1 c.2
    let d := 2 * Dot (read n.1 pv) (read n.1 n.2)
    let m := multM n.1 n.2 d
    let r := SubH m.1 pv m.2
    (r.1, r.2)

/-- The final store agrees with the initial one on every address below `N`
(and the allocation frontier has not moved backwards). -/
def FramesAbove (N : Nat) (σ σ2 : St) : Prop :=
  σ.next ≤ σ2.next ∧ ∀ q, q < N → σ2.mem q = σ.mem q

end vector3

namespace vector3

lemma copy_eq (v : Vector) : Copy v = v := rfl

lemma magSq_nonneg (v : Vector) : 0 ≤ MagSq v := by
  unfold MagSq
  nlinarith [mul_self_nonneg v.X, mul_self_nonneg v.Y, mul_self_nonneg v.Z]

lemma mag_eq_sqrt_magSq (v : Vector) : Mag v = Real.sqrt (MagSq v) := rfl

lemma mag_mul_self (v : Vector) : Mag v * Mag v = MagSq v :=
  Real.mul_self_sqrt (magSq_nonneg v)

lemma mag_pos (v : Vector) (h : ¬ isZero v) : 0 < Mag v := by
  have hS : 0 < MagSq v := by
    rcases lt_or_eq_of_le (magSq_nonneg v) with h1 | h1
    · exact h1
    · exfalso
      apply h
      unfold MagSq at h1
      have hx : v.X * v.X = 0 := by
        nlinarith [mul_self_nonneg v.X, mul_self_nonneg v.Y, mul_self_nonneg v.Z]
      have hy : v.Y * v.Y = 0 := by
        nlinarith [mul_self_nonneg v.X, mul_self_nonneg v.Y, mul_self_nonneg v.Z]
      have hz : v.Z * v.Z = 0 := by
        nlinarith [mul_self_nonneg v.X, mul_self_nonneg v.Y, mul_self_nonneg v.Z]
      exact ⟨mul_self_eq_zero.mp hx, mul_self_eq_zero.mp hy, mul_self_eq_zero.mp hz⟩
  rw [mag_eq_sqrt_magSq]
  exact Real.sqrt_pos.mpr hS

lemma mag_ne_zero (v : Vector) (h : ¬ isZero v) : Mag v ≠ 0 :=
  ne_of_gt (mag_pos v h)

lemma magSq_mult (v : Vector) (k : ℝ) : MagSq (Mult v k) = k * k * MagSq v := by
  simp only [MagSq, Mult]; ring

lemma normalize_magSq (v : Vector) (h : ¬ isZero v) : MagSq (Normalize v) = 1 := by
  have hm := mag_ne_zero v h
  have hm2 := mag_mul_self v
  unfold Normalize
  rw [if_neg hm]
  unfold MagSq at hm2 ⊢
  field_simp
  linarith [hm2]

lemma unit_eq_normalize (v : Vector) (h : Mag v ≠ 0) : Unit v = Normalize v := by
  unfold Unit Normalize
  rw [if_neg h, if_neg h]

/-- C1 counterexample: with an explicitly passed tolerance of `1e-7`, the
vectors `(0,0,0)` and `(1.5e-7,0,0)` are reported equal by `Equal`, even
though the X difference exceeds the passed tolerance. -/
theorem equal_passed_tolerance_counterexample :
    Equal (New 0 0 0) (New 1.5e-7 0 0) [1e-7] = true ∧
      ¬ |(New 0 0 0).X - (New 1.5e-7 0 0).X| ≤ (1e-7 : ℝ) := by
  have habs : |(0 : ℝ) - 1.5e-7| = 1.5e-7 := by
    rw [abs_sub_comm, sub_zero]
    exact abs_of_nonneg (by norm_num)
  constructor
  · show (if |(0 : ℝ) - 1.5e-7| > 1e-7 + 1e-7 then false
      else if |(0 : ℝ) - 0| > 1e-7 + 1e-7 then false
      else if |(0 : ℝ) - 0| > 1e-7 + 1e-7 then false else true) = true
    rw [habs]
    norm_num
  · show ¬ |(0 : ℝ) - 1.5e-7| ≤ (1e-7 : ℝ)
    rw [habs]
    norm_num

/-- C1 (amended): `Equal` returns true iff each component difference is at
most the effective tolerance, which is `1e-7` plus the explicitly passed
value when one is passed (the Go code does `t += tolerance[0]`), and `1e-7`
when omitted. -/
theorem equal_iff_effective_tolerance (v v2 : Vector) (tol : List ℝ) :
    Equal v v2 tol = true ↔
      (|v.X - v2.X| ≤ 1e-7 + tol.headD 0 ∧ |v.Y - v2.Y| ≤ 1e-7 + tol.headD 0 ∧
        |v.Z - v2.Z| ≤ 1e-7 + tol.headD 0) := by
  have key : ∀ t : ℝ,
      ((if |v.X - v2.X| > t then false
        else if |v.Y - v2.Y| > t then false
        else if |v.Z - v2.Z| > t then false else true) = true ↔
        (|v.X - v2.X| ≤ t ∧ |v.Y - v2.Y| ≤ t ∧ |v.Z - v2.Z| ≤ t)) := by
    intro t
    split_ifs with h1 h2 h3
    · constructor
      · intro h; simp at h
      · rintro ⟨hx, -, -⟩; exact absurd hx (not_le.mpr h1)
    · constructor
      · intro h; simp at h
      · rintro ⟨-, hy, -⟩; exact absurd hy (not_le.mpr h2)
    · constructor
      · intro h; simp at h
      · rintro ⟨-, -, hz⟩; exact absurd hz (not_le.mpr h3)
    · push_neg at h1 h2 h3
      exact ⟨fun _ => ⟨h1, h2, h3⟩, fun _ => rfl⟩
  cases tol with
  | nil =>
    simp only [List.headD_nil, add_zero]
    exact key 1e-7
  | cons a l =>
    simp only [List.headD_cons]
    exact key (1e-7 + a)

/-- C2 counterexample: resizing a copy of the zero vector to magnitude 1
leaves the zero vector, whose magnitude 0 is not within any tolerance of 1. -/
theorem resize_zero_vector_counterexample :
    Mag (Resize (Copy (New 0 0 0)) 1) = 0 ∧
      ¬ |Mag (Resize (Copy (New 0 0 0)) 1) - 1| ≤ 1e-5 := by
  have h : Mag (Resize (Copy (New 0 0 0)) 1) = 0 := by
    norm_num [Resize, Copy, New, Normalize, Mult, Mag]
  refine ⟨h, ?_⟩
  rw [h]
  norm_num

/-- C2 (amended): for every vector with at least one non-zero component and
every positive target magnitude `m`, `Mag(Resize(Copy(v), m))` equals `m`
exactly (in the real-arithmetic model). -/
theorem mag_resize_eq (v : Vector) (m : ℝ) (hv : ¬ isZero v) (hm : 0 < m) :
    Mag (Resize (Copy v) m) = m := by
  have h1 : MagSq (Mult (Normalize v) m) = m * m := by
    rw [magSq_mult, normalize_magSq v hv, mul_one]
  show Mag (Mult (Normalize (Copy v)) m) = m
  rw [copy_eq, mag_eq_sqrt_magSq, h1, Real.sqrt_mul_self hm.le]

/-- Witness for the amended C2 theorem at `v = (3,4,12)`, `m = 2`. -/
theorem mag_resize_eq_witness :
    ¬ isZero (New 3 4 12) ∧ (0 : ℝ) < 2 ∧ Mag (Resize (Copy (New 3 4 12)) 2) = 2 := by
  have h1 : ¬ isZero (New 3 4 12) := by
    unfold isZero New
    norm_num
  exact ⟨h1, by norm_num, mag_resize_eq (New 3 4 12) 2 h1 (by norm_num)⟩

lemma component_eq (v axis : Vector) (h : ¬ isZero axis) :
    Component v axis =
      (Mult (Normalize axis) (Dot v (Normalize axis)),
        Sub v (Mult (Normalize axis) (Dot v (Normalize axis)))) := by
  unfold Component
  rw [if_neg h]
  rfl

lemma rotateOnPlane_eq (v normal : Vector) (θ : ℝ) (h : Mag normal ≠ 0) :
    rotateOnPlane v normal θ =
      Add (Mult v (Real.cos θ)) (Mult (Cross (Normalize normal) v) (Real.sin θ)) := by
  unfold rotateOnPlane
  rw [unit_eq_normalize normal h, copy_eq]

lemma dot_perp (n v : Vector) (hn : MagSq n = 1) :
    Dot n (Sub v (Mult n (Dot v n))) = 0 := by
  obtain ⟨nx, ny, nz⟩ := n
  obtain ⟨vx, vy, vz⟩ := v
  simp only [Dot, Sub, Mult, MagSq] at *
  linear_combination (-(vx * nx + vy * ny + vz * nz)) * hn

lemma magSq_decomp (n v : Vector) (hn : MagSq n = 1) :
    MagSq v = Dot v n * Dot v n + MagSq (Sub v (Mult n (Dot v n))) := by
  obtain ⟨nx, ny, nz⟩ := n
  obtain ⟨vx, vy, vz⟩ := v
  simp only [Dot, Sub, Mult, MagSq] at *
  linear_combination (-((vx * nx + vy * ny + vz * nz) * (vx * nx + vy * ny + vz * nz))) * hn

lemma magSq_rot_main (n p : Vector) (d c s : ℝ) (hn : MagSq n = 1)
    (hp : Dot n p = 0) (hcs : c * c + s * s = 1) :
    MagSq (Add (Mult n d) (Add (Mult p c) (Mult (Cross n p) s))) = d * d + MagSq p := by
  obtain ⟨nx, ny, nz⟩ := n
  obtain ⟨px, py, pz⟩ := p
  simp only [Dot, Cross, Add, Mult, MagSq] at *
  linear_combination (d * d + s * s * (px * px + py * py + pz * pz)) * hn +
    (2 * d * c - s * s * (nx * px + ny * py + nz * pz)) * hp +
    (px * px + py * py + pz * pz) * hcs

/-- C3: for a non-zero axis, `RotateAlongAxis` preserves the magnitude of
its input, in exact arithmetic. -/
theorem rotateAlongAxis_preserves_mag (v axis : Vector) (θ : ℝ) (h : ¬ isZero axis) :
    Mag (RotateAlongAxis v axis θ) = Mag v := by
  have hmag := mag_ne_zero axis h
  have hn1 : MagSq (Normalize axis) = 1 := normalize_magSq axis h
  have hcs : Real.cos θ * Real.cos θ + Real.sin θ * Real.sin θ = 1 := by
    have h2 := Real.sin_sq_add_cos_sq θ
    rw [pow_two, pow_two] at h2
    linarith
  unfold RotateAlongAxis
  rw [if_neg h, component_eq v axis h]
  dsimp only
  rw [rotateOnPlane_eq _ axis θ hmag]
  rw [mag_eq_sqrt_magSq, mag_eq_sqrt_magSq v]
  congr 1
  rw [magSq_rot_main (Normalize axis) (Sub v (Mult (Normalize axis) (Dot v (Normalize axis))))
    (Dot v (Normalize axis)) (Real.cos θ) (Real.sin θ) hn1 (dot_perp (Normalize axis) v hn1) hcs]
  exact (magSq_decomp (Normalize axis) v hn1).symm

/-- Witness for C3 at `v = (1,2,3)`, `axis = (0,0,2)`, `θ = 0`. -/
theorem rotateAlongAxis_preserves_mag_witness :
    ¬ isZero (New 0 0 2) ∧
      Mag (RotateAlongAxis (New 1 2 3) (New 0 0 2) 0) = Mag (New 1 2 3) := by
  have h : ¬ isZero (New 0 0 2) := by
    unfold isZero New
    norm_num
  exact ⟨h, rotateAlongAxis_preserves_mag (New 1 2 3) (New 0 0 2) 0 h⟩

lemma reflect_main (n v : Vector) (hn : MagSq n = 1) :
    Sub (Sub v (Mult n (2 * Dot v n))) (Mult n (2 * Dot (Sub v (Mult n (2 * Dot v n))) n)) = v := by
  obtain ⟨nx, ny, nz⟩ := n
  obtain ⟨vx, vy, vz⟩ := v
  simp only [Dot, Sub, Mult, MagSq] at *
  rw [Vector.mk.injEq]
  refine ⟨?_, ?_, ?_⟩
  · linear_combination (4 * (vx * nx + vy * ny + vz * nz) * nx) * hn
  · linear_combination (4 * (vx * nx + vy * ny + vz * nz) * ny) * hn
  · linear_combination (4 * (vx * nx + vy * ny + vz * nz) * nz) * hn

/-- C5: reflecting twice through the same non-zero plane normal returns the
original vector exactly, in exact arithmetic. -/
theorem reflectThroughPlane_involution (v normal : Vector) (h : ¬ isZero normal) :
    ReflectThroughPlane (ReflectThroughPlane v normal) normal = v := by
  have hn1 : MagSq (Normalize normal) = 1 := normalize_magSq normal h
  unfold ReflectThroughPlane
  rw [if_neg h, if_neg h, copy_eq]
  exact reflect_main (Normalize normal) v hn1

/-- Witness for C5 at `v = (1,2,3)`, `normal = (0,0,1)`. -/
theorem reflectThroughPlane_involution_witness :
    ¬ isZero (New 0 0 1) ∧
      ReflectThroughPlane (ReflectThroughPlane (New 1 2 3) (New 0 0 1)) (New 0 0 1) = New 1 2 3 := by
  have h : ¬ isZero (New 0 0 1) := by
    unfold isZero New
    norm_num
  exact ⟨h, reflectThroughPlane_involution (New 1 2 3) (New 0 0 1) h⟩

lemma add_sub_cancel_vec (p v : Vector) : Add p (Sub v p) = v := by
  obtain ⟨px, py, pz⟩ := p
  obtain ⟨vx, vy, vz⟩ := v
  simp only [Add, Sub]
  rw [Vector.mk.injEq]
  refine ⟨?_, ?_, ?_⟩ <;> ring

lemma dot_perp_axis (v axis : Vector) (h : Mag axis ≠ 0) :
    Dot (Sub v (Mult (Normalize axis) (Dot v (Normalize axis)))) axis = 0 := by
  have hm2 := mag_mul_self axis
  unfold Normalize
  rw [if_neg h]
  obtain ⟨ax, ay, az⟩ := axis
  obtain ⟨vx, vy, vz⟩ := v
  simp only [Dot, Sub, Mult, MagSq] at *
  field_simp
  linear_combination (vx * ax + vy * ay + vz * az) * hm2

/-- C10: for a non-zero axis, `Component` returns a pair whose sum is the
input, whose first element is a scalar multiple of the axis, and whose
second element is orthogonal to the axis, in exact arithmetic. -/
theorem component_decomposition_spec (v axis : Vector) (h : ¬ isZero axis) :
    Add (Component v axis).1 (Component v axis).2 = v ∧
      (∃ k : ℝ, (Component v axis).1 = Mult axis k) ∧
      Dot (Component v axis).2 axis = 0 := by
  have hmag := mag_ne_zero axis h
  rw [component_eq v axis h]
  dsimp only
  refine ⟨add_sub_cancel_vec _ _, ⟨Dot v (Normalize axis) / Mag axis, ?_⟩, dot_perp_axis v axis hmag⟩
  unfold Normalize
  rw [if_neg hmag]
  unfold Mult
  rw [Vector.mk.injEq]
  refine ⟨?_, ?_, ?_⟩ <;> ring

/-- Witness for C10 at `v = (1,2,3)`, `axis = (1,0,0)`. -/
theorem component_decomposition_spec_witness :
    ¬ isZero (New 1 0 0) ∧
      (Add (Component (New 1 2 3) (New 1 0 0)).1 (Component (New 1 2 3) (New 1 0 0)).2 = New 1 2 3 ∧
        (∃ k : ℝ, (Component (New 1 2 3) (New 1 0 0)).1 = Mult (New 1 0 0) k) ∧
        Dot (Component (New 1 2 3) (New 1 0 0)).2 (New 1 0 0) = 0) := by
  have h : ¬ isZero (New 1 0 0) := by
    unfold isZero New
    norm_num
  exact ⟨h, component_decomposition_spec (New 1 2 3) (New 1 0 0) h⟩

/-- C4: for a non-zero vector away from the poles (where `v.X = v.Y = 0`),
feeding the `(theta, phi)` pair returned by `Heading` back into
`FromAngles` with the default length 1 reconstructs `Unit v` exactly. -/
theorem fromAngles_heading_eq_unit (v : Vector) (hv : ¬ isZero v)
    (hp : ¬ (v.X = 0 ∧ v.Y = 0)) :
    ∃ φ : ℝ, (Heading v).2 = some φ ∧ FromAngles (Heading v).1 φ [] = Unit v := by
  have hm0 : Mag v ≠ 0 := mag_ne_zero v hv
  have hmpos : 0 < Mag v := mag_pos v hv
  have hm2 : Mag v * Mag v = MagSq v := mag_mul_self v
  set r := Real.sqrt (v.X * v.X + v.Y * v.Y) with hr
  have hxy : 0 < v.X * v.X + v.Y * v.Y := by
    rcases not_and_or.mp hp with h | h
    · have h1 : 0 < v.X * v.X := mul_self_pos.mpr h
      nlinarith [mul_self_nonneg v.Y]
    · have h1 : 0 < v.Y * v.Y := mul_self_pos.mpr h
      nlinarith [mul_self_nonneg v.X]
  have hrpos : 0 < r := by
    rw [hr]
    exact Real.sqrt_pos.mpr hxy
  have hrr : r * r = v.X * v.X + v.Y * v.Y := Real.mul_self_sqrt hxy.le
  have hzC : (⟨v.X, v.Y⟩ : ℂ) ≠ 0 := by
    intro hc
    apply hp
    constructor
    · simpa using congrArg Complex.re hc
    · simpa using congrArg Complex.im hc
  have habs : Complex.abs ⟨v.X, v.Y⟩ = r := by
    rw [Complex.abs_apply, Complex.normSq_mk, hr]
  have hcosθ : Real.cos (atan2 v.Y v.X) = v.X / r := by
    unfold atan2
    rw [Complex.cos_arg hzC, habs]
  have hsinθ : Real.sin (atan2 v.Y v.X) = v.Y / r := by
    unfold atan2
    rw [Complex.sin_arg, habs]
  have hz2 : v.Z * v.Z ≤ Mag v * Mag v := by
    rw [hm2]
    unfold MagSq
    nlinarith [mul_self_nonneg v.X, mul_self_nonneg v.Y]
  have hzle : v.Z ≤ Mag v := by
    nlinarith [sq_nonneg (v.Z - Mag v)]
  have hzge : -(Mag v) ≤ v.Z := by
    nlinarith [sq_nonneg (v.Z + Mag v)]
  have hub : v.Z / Mag v ≤ 1 := by
    rw [div_le_one hmpos]
    exact hzle
  have hlb : -1 ≤ v.Z / Mag v := by
    rw [le_div_iff₀ hmpos]
    linarith
  have hcosφ : Real.cos (Real.arccos (v.Z / Mag v)) = v.Z / Mag v :=
    Real.cos_arccos hlb hub
  have hsinφ : Real.sin (Real.arccos (v.Z / Mag v)) = r / Mag v := by
    rw [Real.sin_arccos]
    have h1 : 1 - (v.Z / Mag v) ^ 2 = (r / Mag v) ^ 2 := by
      have hm2u : Mag v * Mag v = v.X * v.X + v.Y * v.Y + v.Z * v.Z := hm2
      field_simp
      linear_combination hm2u - hrr
    rw [h1, Real.sqrt_sq (by positivity : (0 : ℝ) ≤ r / Mag v)]
  refine ⟨Real.arccos (v.Z / Mag v), ?_, ?_⟩
  · show (if Mag v = 0 then none else some (Real.arccos (v.Z / Mag v))) = some _
    rw [if_neg hm0]
  · show FromAngles (atan2 v.Y v.X) (Real.arccos (v.Z / Mag v)) [] = Unit v
    unfold FromAngles Unit
    rw [if_neg hm0]
    dsimp only
    rw [Vector.mk.injEq]
    refine ⟨?_, ?_, ?_⟩
    · rw [hcosθ, hsinφ]
      field_simp
    · rw [hsinθ, hsinφ]
      field_simp
    · rw [hcosφ]
      ring

/-- Witness for C4 at `v = (1,2,2)` (magnitude 3, away from the poles). -/
theorem fromAngles_heading_eq_unit_witness :
    ¬ isZero (New 1 2 2) ∧ ¬ ((New 1 2 2).X = 0 ∧ (New 1 2 2).Y = 0) ∧
      (∃ φ : ℝ, (Heading (New 1 2 2)).2 = some φ ∧
        FromAngles (Heading (New 1 2 2)).1 φ [] = Unit (New 1 2 2)) := by
  have h1 : ¬ isZero (New 1 2 2) := by
    unfold isZero New
    norm_num
  have h2 : ¬ ((New 1 2 2).X = 0 ∧ (New 1 2 2).Y = 0) := by
    unfold New
    norm_num
  exact ⟨h1, h2, fromAngles_heading_eq_unit (New 1 2 2) h1 h2⟩

lemma framesAbove_refl (N : Nat) (σ : St) : FramesAbove N σ σ :=
  ⟨le_refl _, fun _ _ => rfl⟩

lemma framesAbove_trans {N : Nat} {σ1 σ2 σ3 : St}
    (h1 : FramesAbove N σ1 σ2) (h2 : FramesAbove N σ2 σ3) : FramesAbove N σ1 σ3 :=
  ⟨le_trans h1.1 h2.1, fun q hq => (h2.2 q hq).trans (h1.2 q hq)⟩

lemma framesAbove_alloc {N : Nat} (σ : St) (v : Vector) (h : N ≤ σ.next) :
    FramesAbove N σ (alloc σ v).1 := by
  refine ⟨Nat.le_succ _, fun q hq => ?_⟩
  show (if q = σ.next then v else σ.mem q) = σ.mem q
  rw [if_neg (by omega)]

lemma framesAbove_write {N : Nat} (σ : St) (p : Nat) (v : Vector) (h : N ≤ p) :
    FramesAbove N σ (write σ p v) := by
  refine ⟨le_refl _, fun q hq => ?_⟩
  show (if q = p then v else σ.mem q) = σ.mem q
  rw [if_neg (by omega)]

lemma framesAbove_multM (N : Nat) (σ : St) (p : Nat) (k : ℝ) (h : N ≤ p) :
    FramesAbove N σ (multM σ p k).1 :=
  framesAbove_write σ p _ h

lemma framesAbove_addM (N : Nat) (σ : St) (p p2 : Nat) (h : N ≤ p) :
    FramesAbove N σ (addM σ p p2).1 :=
  framesAbove_write σ p _ h

lemma framesAbove_assignM (N : Nat) (σ : St) (p p2 : Nat) (h : N ≤ p) :
    FramesAbove N σ (assignM σ p p2).1 :=
  framesAbove_write σ p _ h

lemma framesAbove_normalizeM (N : Nat) (σ : St) (p : Nat) (h : N ≤ p) :
    FramesAbove N σ (normalizeM σ p).1 := by
  unfold normalizeM
  split
  · exact framesAbove_refl N σ
  · exact framesAbove_write σ p _ h

lemma normalizeM_snd (σ : St) (p : Nat) : (normalizeM σ p).2 = p := by
  unfold normalizeM
  split <;> rfl

lemma framesAbove_UnitH (N : Nat) (σ : St) (p : Nat) (h : N ≤ σ.next) :
    FramesAbove N σ (UnitH σ p).1 := by
  unfold UnitH
  split
  · exact framesAbove_alloc σ _ h
  · exact framesAbove_alloc σ _ h

lemma framesAbove_copy_norm_mult_sub (N : Nat) (σ : St) (pa pv : Nat) (d : ℝ)
    (h : N ≤ σ.next) :
    FramesAbove N σ (SubH (multM (normalizeM (CopyH σ pa).1 (CopyH σ pa).2).1
      (normalizeM (CopyH σ pa).1 (CopyH σ pa).2).2 d).1 pv
      (multM (normalizeM (CopyH σ pa).1 (CopyH σ pa).2).1
        (normalizeM (CopyH σ pa).1 (CopyH σ pa).2).2 d).2).1 := by
  set c := CopyH σ pa with hcdef
  set n := normalizeM c.1 c.2 with hndef
  set m := multM n.1 n.2 d with hmdef
  have h0 : FramesAbove N σ c.1 := framesAbove_alloc σ _ h
  have hc2 : N ≤ c.2 := h
  have h1 : FramesAbove N c.1 n.1 := framesAbove_normalizeM N c.1 c.2 hc2
  have hn2 : N ≤ n.2 := by
    rw [show n.2 = c.2 from normalizeM_snd c.1 c.2]
    exact hc2
  have h2 : FramesAbove N n.1 m.1 := framesAbove_multM N n.1 n.2 d hn2
  have h3 : FramesAbove N m.1 (SubH m.1 pv m.2).1 :=
    framesAbove_alloc m.1 _ (le_trans h (le_trans h0.1 (le_trans h1.1 h2.1)))
  exact framesAbove_trans h0 (framesAbove_trans h1 (framesAbove_trans h2 h3))

lemma framesAbove_ComponentH (N : Nat) (σ : St) (pv pa : Nat) (h : N ≤ σ.next) :
    FramesAbove N σ (ComponentH σ pv pa).1 := by
  unfold ComponentH
  split
  · exact framesAbove_trans (framesAbove_alloc σ zero h)
      (framesAbove_alloc _ zero (le_trans h (Nat.le_succ _)))
  · exact framesAbove_copy_norm_mult_sub N σ pa pv _ h

lemma ComponentH_ptr1 (σ : St) (pv pa : Nat) : (ComponentH σ pv pa).2.1 = σ.next := by
  unfold ComponentH
  split
  · rfl
  · show (normalizeM (CopyH σ pa).1 (CopyH σ pa).2).2 = σ.next
    rw [normalizeM_snd]
    rfl

lemma ComponentH_ptr2 (σ : St) (pv pa : Nat) : (ComponentH σ pv pa).2.2 = σ.next + 1 := by
  unfold ComponentH
  split
  · rfl
  · show (normalizeM (CopyH σ pa).1 (CopyH σ pa).2).1.next = σ.next + 1
    unfold normalizeM
    split <;> rfl

lemma framesAbove_rotateOnPlaneH (N : Nat) (σ : St) (pv pn : Nat) (angle : ℝ)
    (h : N ≤ σ.next) : FramesAbove N σ (rotateOnPlaneH σ pv pn angle).1 := by
  show FramesAbove N σ (addM (multM (CopyH (multM (CrossH (UnitH σ pn).1 (UnitH σ pn).2 pv).1
    (CrossH (UnitH σ pn).1 (UnitH σ pn).2 pv).2 (Real.sin angle)).1 pv).1
    (CopyH (multM (CrossH (UnitH σ pn).1 (UnitH σ pn).2 pv).1
      (CrossH (UnitH σ pn).1 (UnitH σ pn).2 pv).2 (Real.sin angle)).1 pv).2 (Real.cos angle)).1
    (multM (CopyH (multM (CrossH (UnitH σ pn).1 (UnitH σ pn).2 pv).1
      (CrossH (UnitH σ pn).1 (UnitH σ pn).2 pv).2 (Real.sin angle)).1 pv).1
      (CopyH (multM (CrossH (UnitH σ pn).1 (UnitH σ pn).2 pv).1
        (CrossH (UnitH σ pn).1 (UnitH σ pn).2 pv).2 (Real.sin angle)).1 pv).2 (Real.cos angle)).2
    (multM (CrossH (UnitH σ pn).1 (UnitH σ pn).2 pv).1
      (CrossH (UnitH σ pn).1 (UnitH σ pn).2 pv).2 (Real.sin angle)).2).1
  set u := UnitH σ pn with hudef
  set nv := CrossH u.1 u.2 pv with hnvdef
  set nv2 := multM nv.1 nv.2 (Real.sin angle) with hnv2def
  set c := CopyH nv2.1 pv with hcdef
  set V := multM c.1 c.2 (Real.cos angle) with hVdef
  have h0 : FramesAbove N σ u.1 := framesAbove_UnitH N σ pn h
  have h1 : FramesAbove N u.1 nv.1 := framesAbove_alloc u.1 _ (le_trans h h0.1)
  have hnv2 : N ≤ nv.2 := le_trans h h0.1
  have h2 : FramesAbove N nv.1 nv2.1 := framesAbove_multM N nv.1 nv.2 _ hnv2
  have hchain2 : N ≤ nv2.1.next := le_trans h (le_trans h0.1 (le_trans h1.1 h2.1))
  have h3 : FramesAbove N nv2.1 c.1 := framesAbove_alloc nv2.1 _ hchain2
  have hc2 : N ≤ c.2 := hchain2
  have h4 : FramesAbove N c.1 V.1 := framesAbove_multM N c.1 c.2 _ hc2
  have hV2 : N ≤ V.2 := hc2
  have h5 : FramesAbove N V.1 (addM V.1 V.2 nv2.2).1 := framesAbove_addM N V.1 V.2 nv2.2 hV2
  exact framesAbove_trans h0 (framesAbove_trans h1 (framesAbove_trans h2
    (framesAbove_trans h3 (framesAbove_trans h4 h5))))

lemma framesAbove_rotateOnPlaneM (N : Nat) (σ : St) (pv pn : Nat) (angle : ℝ)
    (h : N ≤ σ.next) (hpv : N ≤ pv) : FramesAbove N σ (rotateOnPlaneM σ pv pn angle).1 := by
  show FramesAbove N σ (assignM (rotateOnPlaneH σ pv pn angle).1 pv
    (rotateOnPlaneH σ pv pn angle).2).1
  exact framesAbove_trans (framesAbove_rotateOnPlaneH N σ pv pn angle h)
    (framesAbove_assignM N _ pv _ hpv)

lemma framesAbove_RotateAlongAxisH (N : Nat) (σ : St) (pv pa : Nat) (angle : ℝ)
    (h : N ≤ σ.next) : FramesAbove N σ (RotateAlongAxisH σ pv pa angle).1 := by
  unfold RotateAlongAxisH
  split
  · exact framesAbove_refl N σ
  · show FramesAbove N σ (addM (rotateOnPlaneM (ComponentH σ pv pa).1
      (ComponentH σ pv pa).2.2 pa angle).1 (ComponentH σ pv pa).2.1
      (ComponentH σ pv pa).2.2).1
    have h0 : FramesAbove N σ (ComponentH σ pv pa).1 := framesAbove_ComponentH N σ pv pa h
    have hp2 : N ≤ (ComponentH σ pv pa).2.2 := by
      rw [ComponentH_ptr2]
      omega
    have hp1 : N ≤ (ComponentH σ pv pa).2.1 := by
      rw [ComponentH_ptr1]
      exact h
    have h1 : FramesAbove N (ComponentH σ pv pa).1 (rotateOnPlaneM (ComponentH σ pv pa).1
        (ComponentH σ pv pa).2.2 pa angle).1 :=
      framesAbove_rotateOnPlaneM N _ _ pa angle (le_trans h h0.1) hp2
    have h2 : FramesAbove N (rotateOnPlaneM (ComponentH σ pv pa).1
        (ComponentH σ pv pa).2.2 pa angle).1 (addM (rotateOnPlaneM (ComponentH σ pv pa).1
        (ComponentH σ pv pa).2.2 pa angle).1 (ComponentH σ pv pa).2.1
        (ComponentH σ pv pa).2.2).1 :=
      framesAbove_addM N _ _ _ hp1
    exact framesAbove_trans h0 (framesAbove_trans h1 h2)

lemma framesAbove_ReflectThroughPlaneH (N : Nat) (σ : St) (pv pn : Nat)
    (h : N ≤ σ.next) : FramesAbove N σ (ReflectThroughPlaneH σ pv pn).1 := by
  unfold ReflectThroughPlaneH
  split
  · exact framesAbove_refl N σ
  · exact framesAbove_copy_norm_mult_sub N σ pn pv _ h

/-- C9: each pure free function of the 3D package (`Add`, `Sub`, `Unit`,
`Copy`, `Cross`, `Dist`, `Dot`, `Angle`, `Lerp`, `RotateAlongAxis`,
`ReflectThroughPlane`), run in the pointer-store model, leaves the value at
every pre-existing address — in particular at each of its input pointers —
unchanged. -/
theorem free_functions_preserve_inputs (σ : St) (p1 p2 : Nat) (t θ : ℝ) (q : Nat)
    (hq : q < σ.next) :
    (AddH σ p1 p2).1.mem q = σ.mem q ∧
    (SubH σ p1 p2).1.mem q = σ.mem q ∧
    (UnitH σ p1).1.mem q = σ.mem q ∧
    (CopyH σ p1).1.mem q = σ.mem q ∧
    (CrossH σ p1 p2).1.mem q = σ.mem q ∧
    (DistH σ p1 p2).1.mem q = σ.mem q ∧
    (DotH σ p1 p2).1.mem q = σ.mem q ∧
    (AngleH σ p1 p2).1.mem q = σ.mem q ∧
    (LerpH σ p1 p2 t).1.mem q = σ.mem q ∧
    (RotateAlongAxisH σ p1 p2 θ).1.mem q = σ.mem q ∧
    (ReflectThroughPlaneH σ p1 p2).1.mem q = σ.mem q := by
  have hN : σ.next ≤ σ.next := le_refl _
  refine ⟨?_, ?_, ?_, ?_, ?_, ?_, rfl, rfl, ?_, ?_, ?_⟩
  · exact (framesAbove_alloc σ _ hN).2 q hq
  · exact (framesAbove_alloc σ _ hN).2 q hq
  · exact (framesAbove_UnitH σ.next σ p1 hN).2 q hq
  · exact (framesAbove_alloc σ _ hN).2 q hq
  · exact (framesAbove_alloc σ _ hN).2 q hq
  · exact (framesAbove_alloc σ _ hN).2 q hq
  · exact (framesAbove_alloc σ _ hN).2 q hq
  · exact (framesAbove_RotateAlongAxisH σ.next σ p1 p2 θ hN).2 q hq
  · exact (framesAbove_ReflectThroughPlaneH σ.next σ p1 p2 hN).2 q hq

/-- Witness for C9 on a concrete two-cell store. -/
theorem free_functions_preserve_inputs_witness :
    0 < (St.mk (fun _ => zero) 1).next ∧
      ((AddH (St.mk (fun _ => zero) 1) 0 0).1.mem 0 = (St.mk (fun _ => zero) 1).mem 0 ∧
       (SubH (St.mk (fun _ => zero) 1) 0 0).1.mem 0 = (St.mk (fun _ => zero) 1).mem 0 ∧
       (UnitH (St.mk (fun _ => zero) 1) 0).1.mem 0 = (St.mk (fun _ => zero) 1).mem 0 ∧
       (CopyH (St.mk (fun _ => zero) 1) 0).1.mem 0 = (St.mk (fun _ => zero) 1).mem 0 ∧
       (CrossH (St.mk (fun _ => zero) 1) 0 0).1.mem 0 = (St.mk (fun _ => zero) 1).mem 0 ∧
       (DistH (St.mk (fun _ => zero) 1) 0 0).1.mem 0 = (St.mk (fun _ => zero) 1).mem 0 ∧
       (DotH (St.mk (fun _ => zero) 1) 0 0).1.mem 0 = (St.mk (fun _ => zero) 1).mem 0 ∧
       (AngleH (St.mk (fun _ => zero) 1) 0 0).1.mem 0 = (St.mk (fun _ => zero) 1).mem 0 ∧
       (LerpH (St.mk (fun _ => zero) 1) 0 0 0).1.mem 0 = (St.mk (fun _ => zero) 1).mem 0 ∧
       (RotateAlongAxisH (St.mk (fun _ => zero) 1) 0 0 0).1.mem 0 =
         (St.mk (fun _ => zero) 1).mem 0 ∧
       (ReflectThroughPlaneH (St.mk (fun _ => zero) 1) 0 0).1.mem 0 =
         (St.mk (fun _ => zero) 1).mem 0) :=
  ⟨Nat.zero_lt_one,
    free_functions_preserve_inputs (St.mk (fun _ => zero) 1) 0 0 0 0 0 Nat.zero_lt_one⟩

lemma dot_sq_le_magSq (v1 v2 : Vector) :
    Dot v1 v2 * Dot v1 v2 ≤ MagSq v1 * MagSq v2 := by
  obtain ⟨x1, y1, z1⟩ := v1
  obtain ⟨x2, y2, z2⟩ := v2
  simp only [Dot, MagSq]
  nlinarith [sq_nonneg (x1 * y2 - y1 * x2), sq_nonneg (y1 * z2 - z1 * y2),
    sq_nonneg (z1 * x2 - x1 * z2)]

lemma mag_sq_product (v1 v2 : Vector) :
    (Mag v1 * Mag v2) * (Mag v1 * Mag v2) = MagSq v1 * MagSq v2 := by
  have e1 := mag_mul_self v1
  have e2 := mag_mul_self v2
  linear_combination (Mag v2 * Mag v2) * e1 + MagSq v1 * e2

end vector3

namespace vector2d

lemma magSq_nonneg_two (v : Vector2D) : 0 ≤ MagSq v := by
  unfold MagSq
  nlinarith [mul_self_nonneg v.X, mul_self_nonneg v.Y]

lemma mag_mul_self_two (v : Vector2D) : Mag v * Mag v = MagSq v :=
  Real.mul_self_sqrt (magSq_nonneg_two v)

lemma mag_nonneg (v : Vector2D) : 0 ≤ Mag v := Real.sqrt_nonneg _

/-- Lagrange identity in two dimensions: `dot² + cross² = |v1|²·|v2|²`. -/
lemma lagrange_two (v1 v2 : Vector2D) :
    Dot v1 v2 * Dot v1 v2 + Cross v1 v2 * Cross v1 v2 = MagSq v1 * MagSq v2 := by
  obtain ⟨x1, y1⟩ := v1
  obtain ⟨x2, y2⟩ := v2
  simp only [Dot, Cross, MagSq]
  ring

lemma mag_sq_product_two (v1 v2 : Vector2D) :
    (Mag v1 * Mag v2) * (Mag v1 * Mag v2) = MagSq v1 * MagSq v2 := by
  have e1 := mag_mul_self_two v1
  have e2 := mag_mul_self_two v2
  linear_combination (Mag v2 * Mag v2) * e1 + MagSq v1 * e2

/-- C6: for non-zero operands, `AngleBetween` returns a signed angle in
`(-π, π]` whose absolute value is `acos(clamp(dot/(|v1||v2|), -1, 1))` and
which is negative exactly when `Cross(v1, v2) < 0`. -/
theorem angleBetween_signed_spec (v1 v2 : Vector2D) (h1 : Mag v1 ≠ 0) (h2 : Mag v2 ≠ 0) :
    ∃ θ : ℝ, AngleBetween v1 v2 = some θ ∧ (-Real.pi < θ ∧ θ ≤ Real.pi) ∧
      |θ| = Real.arccos (min 1 (max (-1) (Dot v1 v2 / (Mag v1 * Mag v2)))) ∧
      (θ < 0 ↔ Cross v1 v2 < 0) := by
  have hm1 : 0 < Mag v1 := lt_of_le_of_ne (mag_nonneg v1) (Ne.symm h1)
  have hm2 : 0 < Mag v2 := lt_of_le_of_ne (mag_nonneg v2) (Ne.symm h2)
  have hmm : 0 < Mag v1 * Mag v2 := mul_pos hm1 hm2
  have hor : ¬ (Mag v1 = 0 ∨ Mag v2 = 0) := by push_neg; exact ⟨h1, h2⟩
  simp only [AngleBetween]
  rw [if_neg hor]
  by_cases hc : Cross v1 v2 < 0
  · rw [if_pos hc]
    have hcross2 : 0 < Cross v1 v2 * Cross v1 v2 := mul_pos_of_neg_of_neg hc hc
    have hlag := lagrange_two v1 v2
    have hdot2 : Dot v1 v2 * Dot v1 v2 < (Mag v1 * Mag v2) * (Mag v1 * Mag v2) := by
      rw [mag_sq_product_two v1 v2]
      linarith
    have hlt : Dot v1 v2 / (Mag v1 * Mag v2) < 1 := by
      rw [div_lt_one hmm]
      nlinarith [sq_nonneg (Dot v1 v2 - Mag v1 * Mag v2)]
    have hgt : -1 < Dot v1 v2 / (Mag v1 * Mag v2) := by
      rw [lt_div_iff₀ hmm]
      nlinarith [sq_nonneg (Dot v1 v2 + Mag v1 * Mag v2)]
    have harg : min 1 (max (-1) (Dot v1 v2 / (Mag v1 * Mag v2))) =
        Dot v1 v2 / (Mag v1 * Mag v2) := by
      rw [max_eq_right hgt.le, min_eq_right hlt.le]
    have hapos : 0 < Real.arccos (min 1 (max (-1) (Dot v1 v2 / (Mag v1 * Mag v2)))) := by
      rw [harg]
      exact Real.arccos_pos.mpr hlt
    have haltpi : Real.arccos (min 1 (max (-1) (Dot v1 v2 / (Mag v1 * Mag v2)))) < Real.pi := by
      rw [harg, Real.arccos_eq_pi_div_two_sub_arcsin]
      linarith [Real.neg_pi_div_two_lt_arcsin.mpr hgt]
    refine ⟨-Real.arccos (min 1 (max (-1) (Dot v1 v2 / (Mag v1 * Mag v2)))), rfl,
      ⟨by linarith, by linarith [Real.pi_pos]⟩, ?_, ⟨fun _ => hc, fun _ => by linarith⟩⟩
    rw [abs_neg, abs_of_pos hapos]
  · rw [if_neg hc]
    have h0 : 0 ≤ Real.arccos (min 1 (max (-1) (Dot v1 v2 / (Mag v1 * Mag v2)))) :=
      Real.arccos_nonneg _
    have hpi : Real.arccos (min 1 (max (-1) (Dot v1 v2 / (Mag v1 * Mag v2)))) ≤ Real.pi :=
      Real.arccos_le_pi _
    refine ⟨Real.arccos (min 1 (max (-1) (Dot v1 v2 / (Mag v1 * Mag v2)))), rfl,
      ⟨by linarith [Real.pi_pos], hpi⟩, abs_of_nonneg h0,
      ⟨fun hlt0 => absurd hlt0 (not_lt.mpr h0), fun hcc => absurd hcc hc⟩⟩

/-- Witness for C6 at `v1 = (0,1)`, `v2 = (1,0)`. -/
theorem angleBetween_signed_spec_witness :
    Mag (Vector2D.mk 0 1) ≠ 0 ∧ Mag (Vector2D.mk 1 0) ≠ 0 ∧
      (∃ θ : ℝ, AngleBetween (Vector2D.mk 0 1) (Vector2D.mk 1 0) = some θ ∧
        (-Real.pi < θ ∧ θ ≤ Real.pi) ∧
        |θ| = Real.arccos (min 1 (max (-1)
          (Dot (Vector2D.mk 0 1) (Vector2D.mk 1 0) /
            (Mag (Vector2D.mk 0 1) * Mag (Vector2D.mk 1 0))))) ∧
        (θ < 0 ↔ Cross (Vector2D.mk 0 1) (Vector2D.mk 1 0) < 0)) := by
  have h1 : Mag (Vector2D.mk 0 1) ≠ 0 := by
    unfold Mag
    norm_num
  have h2 : Mag (Vector2D.mk 1 0) ≠ 0 := by
    unfold Mag
    norm_num
  exact ⟨h1, h2, angleBetween_signed_spec (Vector2D.mk 0 1) (Vector2D.mk 1 0) h1 h2⟩

end vector2d

/-- C7: the 3D `Angle` and the 2D `AngleBetween` yield NaN (modelled as
`none`) exactly when one operand has zero magnitude; for non-zero operands
they yield a well-defined angle, and no fault is raised in either case. -/
theorem angle_nan_iff_zero_mag (v1 v2 : vector3.Vector) (w1 w2 : vector2d.Vector2D) :
    (vector3.Angle v1 v2 = none ↔ vector3.Mag v1 = 0 ∨ vector3.Mag v2 = 0) ∧
    (vector2d.AngleBetween w1 w2 = none ↔ vector2d.Mag w1 = 0 ∨ vector2d.Mag w2 = 0) := by
  constructor
  · constructor
    · intro h
      by_contra hne
      push_neg at hne
      have hm1 : 0 < vector3.Mag v1 :=
        lt_of_le_of_ne (Real.sqrt_nonneg _) (Ne.symm hne.1)
      have hm2 : 0 < vector3.Mag v2 :=
        lt_of_le_of_ne (Real.sqrt_nonneg _) (Ne.symm hne.2)
      have hmm : 0 < vector3.Mag v1 * vector3.Mag v2 := mul_pos hm1 hm2
      have hor : ¬ (vector3.Mag v1 = 0 ∨ vector3.Mag v2 = 0) := by
        push_neg
        exact hne
      have hd2 : vector3.Dot v1 v2 * vector3.Dot v1 v2 ≤
          (vector3.Mag v1 * vector3.Mag v2) * (vector3.Mag v1 * vector3.Mag v2) := by
        rw [vector3.mag_sq_product v1 v2]
        exact vector3.dot_sq_le_magSq v1 v2
      have hub : vector3.Dot v1 v2 / (vector3.Mag v1 * vector3.Mag v2) ≤ 1 := by
        rw [div_le_one hmm]
        nlinarith [sq_nonneg (vector3.Dot v1 v2 - vector3.Mag v1 * vector3.Mag v2)]
      have hlb : -1 ≤ vector3.Dot v1 v2 / (vector3.Mag v1 * vector3.Mag v2) := by
        rw [le_div_iff₀ hmm]
        nlinarith [sq_nonneg (vector3.Dot v1 v2 + vector3.Mag v1 * vector3.Mag v2)]
      simp only [vector3.Angle] at h
      rw [if_neg hor] at h
      unfold vector3.acosF at h
      rw [if_neg (by push_neg; exact ⟨hlb, hub⟩)] at h
      exact Option.noConfusion h
    · intro h
      simp only [vector3.Angle]
      rw [if_pos h]
  · constructor
    · intro h
      by_contra hne
      push_neg at hne
      have hor : ¬ (vector2d.Mag w1 = 0 ∨ vector2d.Mag w2 = 0) := by
        push_neg
        exact hne
      simp only [vector2d.AngleBetween] at h
      rw [if_neg hor] at h
      split_ifs at h
    · intro h
      simp only [vector2d.AngleBetween]
      rw [if_pos h]

namespace vector2dgen

/-- C8: `Div` with a zero scalar yields the division-by-zero error and does
not produce infinite components; with any non-zero scalar it succeeds and
divides both components by the scalar. -/
theorem div_spec (v : Vector2D) (s : ℝ) :
    (s = 0 → Div v s = Except.error "divide by zero") ∧
    (s ≠ 0 → Div v s = Except.ok ⟨v.X / s, v.Y / s⟩) := by
  constructor
  · intro h
    simp only [Div, if_pos h]
  · intro h
    simp only [Div, if_neg h]

/-- Witness for C8 at `v = (4,6)` with scalars `2` and `0`. -/
theorem div_spec_witness :
    (2 : ℝ) ≠ 0 ∧ Div (Vector2D.mk 4 6) 2 = Except.ok ⟨(4 : ℝ) / 2, (6 : ℝ) / 2⟩ ∧
      Div (Vector2D.mk 4 6) 0 = Except.error "divide by zero" :=
  ⟨by norm_num, (div_spec (Vector2D.mk 4 6) 2).2 (by norm_num),
    (div_spec (Vector2D.mk 4 6) 0).1 rfl⟩

end vector2dgen
